/-
Verification of the session-store subsystem of an ephemeral scratchpad/todo
MCP server (TypeScript).  The embedding models:

  * the data model (`Session`, `Todo`) from src/storage/types usage sites;
  * `RedisSessionStore` (src/storage/RedisSessionStore.ts): serialization,
    owner validation, create/get/update/delete, unique-id generation;
  * the per-session lock table (src/utils/locks.ts);
  * the todo tool handlers (src/tools/todo.ts).

Modelling conventions:
  * A JS `Date` is its millisecond timestamp (an `Int`); the builtin pair
    `Date.prototype.toISOString` / `new Date(iso)` is lossless down to the
    millisecond, so it is modelled as a wrapper `ISODate` with exact inverse.
  * `JSON.stringify` / `JSON.parse` on the plain `SerializedSession` record is
    lossless (string escaping is exact, `undefined`-valued optional fields are
    dropped and come back absent), so the Redis value is modelled as the
    `SerializedSession` record itself.
  * The ioredis client is modelled as an association list of
    key / value / TTL entries plus a `connected` flag; every command rejects
    with a `backendUnavailable` error when disconnected, which models the
    transport error ioredis raises once its retry strategy gives up.
  * Asynchronous methods are pure state transformers returning
    `Except StoreError`; a thrown JS error is an `Except.error`.
-/
import Mathlib

namespace PlanAct

/-! ## Data model (src/storage/types, as used by the store and tools) -/

/-- Todo status: the union type `"pending" | "done"`. -/
inductive TodoStatus where
  | pending
  | done
deriving DecidableEq, Repr, Inhabited

/-- A todo record. `createdAt` is a JS `Date`, modelled as its millisecond
timestamp. -/
structure Todo where
  id : String
  title : String
  description : String
  tags : List String
  status : TodoStatus
  createdAt : Int
deriving DecidableEq, Repr, Inhabited

/-- A session record.  `userId` is the optional owner binding. -/
structure Session where
  id : String
  userId : Option String
  scratchpad : String
  todos : List Todo
  createdAt : Int
  lastModified : Int
deriving DecidableEq, Repr, Inhabited

/-! ## Serialized format (interface `SerializedSession` in
RedisSessionStore.ts).  `ISODate` models the output of
`Date.prototype.toISOString`, which renders the millisecond timestamp
exactly; `new Date(iso)` recovers it. -/

/-- An ISO-8601 timestamp string, identified with the millisecond timestamp
it renders (the rendering is injective and parsed back exactly). -/
structure ISODate where
  ms : Int
deriving DecidableEq, Repr

/-- `Date.prototype.toISOString`. -/
def toISOString (ms : Int) : ISODate := ⟨ms⟩

/-- `new Date(isoString)` on a string produced by `toISOString`. -/
def parseISODate (d : ISODate) : Int := d.ms

/-- Serialized todo entry (element type of `SerializedSession.todos`). -/
structure SerializedTodo where
  id : String
  title : String
  description : String
  tags : List String
  status : String
  createdAt : ISODate
deriving DecidableEq, Repr

/-- The `SerializedSession` interface: the JSON shape stored in Redis. -/
structure SerializedSession where
  id : String
  userId : Option String
  scratchpad : String
  todos : List SerializedTodo
  createdAt : ISODate
  lastModified : ISODate
deriving DecidableEq, Repr

/-- Rendering of a `TodoStatus` as its JSON string. -/
def TodoStatus.toSerial : TodoStatus → String
  | .pending => "pending"
  | .done => "done"

/-- The unchecked cast `todo.status as "pending" | "done"` in
`deserializeSession`: the runtime value is the stored string, so the model
maps the two strings the serializer can emit back to their statuses. -/
def statusOfString (s : String) : TodoStatus :=
  if s = "done" then .done else .pending

/-- `RedisSessionStore.serializeSession`, per-todo part. -/
def serializeTodo (t : Todo) : SerializedTodo :=
  { id := t.id
    title := t.title
    description := t.description
    tags := t.tags
    status := t.status.toSerial
    createdAt := toISOString t.createdAt }

/-- `RedisSessionStore.serializeSession` (lines 180-197): field-by-field copy
with dates rendered via `toISOString`; the final `JSON.stringify` is modelled
as lossless. -/
def serializeSession (s : Session) : SerializedSession :=
  { id := s.id
    userId := s.userId
    scratchpad := s.scratchpad
    todos := s.todos.map serializeTodo
    createdAt := toISOString s.createdAt
    lastModified := toISOString s.lastModified }

/-- `RedisSessionStore.deserializeSession`, per-todo part. -/
def deserializeTodo (t : SerializedTodo) : Todo :=
  { id := t.id
    title := t.title
    description := t.description
    tags := t.tags
    status := statusOfString t.status
    createdAt := parseISODate t.createdAt }

/-- `RedisSessionStore.deserializeSession` (lines 202-219). -/
def deserializeSession (d : SerializedSession) : Session :=
  { id := d.id
    userId := d.userId
    scratchpad := d.scratchpad
    todos := d.todos.map deserializeTodo
    createdAt := parseISODate d.createdAt
    lastModified := parseISODate d.lastModified }

/-! ## Redis client model

The store uses the ioredis commands `setex`, `get`, `ttl`, `del`, `exists`
and `keys`.  The client is modelled as an association list of
key / value / TTL entries (matching the mock used by the repository's own
test suite, which stores `{ value, ttl }` per key and answers `ttl` with the
stored value or `-2` when the key is gone) together with a `connected` flag:
a command issued while disconnected rejects, modelled as a distinguished
`backendUnavailable` error. -/

/-- Errors surfaced by store operations.  `sessionNotFound` and
`userIdMismatch` model the error classes of src/storage/types;
`generationExhausted` models the `Error` thrown by `generateUniqueId`;
`backendUnavailable` models the transport error the Redis client raises on a
connectivity fault. -/
inductive StoreError where
  | sessionNotFound (sessionId : String)
  | userIdMismatch (sessionId : String)
  | generationExhausted
  | backendUnavailable
deriving DecidableEq, Repr

/-- The modelled state of the Redis server as seen through the client. -/
structure RedisState where
  connected : Bool
  data : List (String × SerializedSession × Int)
deriving DecidableEq, Repr

/-- Look up the entry stored under a key. -/
def lookupEntry (data : List (String × SerializedSession × Int))
    (key : String) : Option (SerializedSession × Int) :=
  (data.find? (fun e => e.1 = key)).map (fun e => e.2)

/-- Store a value and TTL under a key, replacing any previous entry. -/
def insertEntry (data : List (String × SerializedSession × Int))
    (key : String) (value : SerializedSession) (ttl : Int) :
    List (String × SerializedSession × Int) :=
  (key, value, ttl) :: data.filter (fun e => e.1 ≠ key)

/-- `client.get(key)`: the stored value, or absent. -/
def clientGet (σ : RedisState) (key : String) :
    Except StoreError (Option SerializedSession) :=
  if σ.connected then
    .ok ((lookupEntry σ.data key).map (fun e => e.1))
  else .error .backendUnavailable

/-- `client.ttl(key)`: the remaining TTL in seconds, or `-2` when the key
does not exist. -/
def clientTtl (σ : RedisState) (key : String) : Except StoreError Int :=
  if σ.connected then
    .ok (match lookupEntry σ.data key with
          | some e => e.2
          | none => -2)
  else .error .backendUnavailable

/-- The state after a successful `SETEX`: the entry replaced under the key,
connection unchanged. -/
def RedisState.withEntry (σ : RedisState) (key : String)
    (value : SerializedSession) (ttl : Int) : RedisState :=
  { σ with data := insertEntry σ.data key value ttl }

/-- The state after a successful `DEL`: the key's entry removed, connection
unchanged. -/
def RedisState.withoutEntry (σ : RedisState) (key : String) : RedisState :=
  { σ with data := σ.data.filter (fun e => e.1 ≠ key) }

/-- `client.setex(key, ttl, value)`: atomic set-with-expiry. -/
def clientSetex (σ : RedisState) (key : String) (ttl : Int)
    (value : SerializedSession) : Except StoreError RedisState :=
  if σ.connected then
    .ok (σ.withEntry key value ttl)
  else .error .backendUnavailable

/-- `client.del(key)`. -/
def clientDel (σ : RedisState) (key : String) : Except StoreError RedisState :=
  if σ.connected then
    .ok (σ.withoutEntry key)
  else .error .backendUnavailable

/-- `client.exists(key)`, already compared with `1` as in
`RedisSessionStore.exists`. -/
def clientExistsKey (σ : RedisState) (key : String) : Except StoreError Bool :=
  if σ.connected then
    .ok (lookupEntry σ.data key).isSome
  else .error .backendUnavailable

/-! ## RedisSessionStore -/

/-- The configuration fields of `RedisSessionStore` that affect its
behaviour (`ttlSeconds = ttlHours * 60 * 60`, key namespace). -/
structure StoreConfig where
  keyPref : String
  ttlSeconds : Int
deriving DecidableEq, Repr

/-- `RedisSessionStore.getKey`. -/
def getKey (cfg : StoreConfig) (sessionId : String) : String :=
  cfg.keyPref ++ sessionId

/-- `RedisSessionStore.validateUserId` (lines 224-230): throws
`UserIdMismatchError` when the session has an owner and the caller is absent
or different. -/
def validateUserId (session : Session) (userId : Option String) :
    Except StoreError Unit :=
  if session.userId ≠ none then
    if userId = none ∨ session.userId ≠ userId then
      .error (.userIdMismatch session.id)
    else .ok ()
  else .ok ()

/-- `RedisSessionStore.get` (lines 254-268): fetch, deserialize, validate the
owner, return the session (or `none` when the key is absent). -/
def storeGet (cfg : StoreConfig) (σ : RedisState) (sessionId : String)
    (userId : Option String) : Except StoreError (Option Session) := do
  let data ← clientGet σ (getKey cfg sessionId)
  match data with
  | none => return none
  | some d =>
    let session := deserializeSession d
    validateUserId session userId
    return some session

/-- The argument type `Partial<Omit<Session, "id" | "createdAt">>` of
`RedisSessionStore.update`: each remaining field may be present (outer
`Option`) and, for `userId`, its value is itself optional. -/
structure SessionUpdates where
  userId : Option (Option String) := none
  scratchpad : Option String := none
  todos : Option (List Todo) := none
  lastModified : Option Int := none
deriving DecidableEq, Repr

/-- The spread `{ ...session, ...updates, lastModified: new Date() }` in
`RedisSessionStore.update`: present update fields overwrite the session's,
and `lastModified` is then stamped with the current time regardless. -/
def applyUpdates (session : Session) (updates : SessionUpdates) (now : Int) :
    Session :=
  { id := session.id
    userId := updates.userId.getD session.userId
    scratchpad := updates.scratchpad.getD session.scratchpad
    todos := updates.todos.getD session.todos
    createdAt := session.createdAt
    lastModified := now }

/-- The TTL chosen on update (line 293): `ttl > 0 ? ttl : this.ttlSeconds`. -/
def newTtlOf (ttl : Int) (ttlSeconds : Int) : Int :=
  if ttl > 0 then ttl else ttlSeconds

/-- `RedisSessionStore.update` (lines 270-296): get (which validates the
owner), throw `SessionNotFoundError` when absent, merge the updates, stamp
`lastModified`, and write back with the remaining TTL (falling back to the
configured TTL when the TTL query reports the key gone). -/
def storeUpdate (cfg : StoreConfig) (σ : RedisState) (sessionId : String)
    (updates : SessionUpdates) (userId : Option String) (now : Int) :
    Except StoreError RedisState := do
  let session? ← storeGet cfg σ sessionId userId
  match session? with
  | none => throw (.sessionNotFound sessionId)
  | some session =>
    let updatedSession := applyUpdates session updates now
    let key := getKey cfg sessionId
    let data := serializeSession updatedSession
    let ttl ← clientTtl σ key
    let newTtl := newTtlOf ttl cfg.ttlSeconds
    clientSetex σ key newTtl data

/-- `RedisSessionStore.delete` (lines 298-307): get (validating the owner),
throw `SessionNotFoundError` when absent, then `DEL` the key. -/
def storeDelete (cfg : StoreConfig) (σ : RedisState) (sessionId : String)
    (userId : Option String) : Except StoreError RedisState := do
  let session? ← storeGet cfg σ sessionId userId
  match session? with
  | none => throw (.sessionNotFound sessionId)
  | some _ => clientDel σ (getKey cfg sessionId)

/-- `RedisSessionStore.exists` (lines 309-313). -/
def storeExists (cfg : StoreConfig) (σ : RedisState) (sessionId : String) :
    Except StoreError Bool :=
  clientExistsKey σ (getKey cfg sessionId)

/-! ## Unique-id generation (`generateUniqueId`, lines 158-175)

The do-while loop, transliterated with the attempt counter made explicit:
on each iteration a candidate is drawn from the NanoID stream `gen`,
`attempts` is incremented, the `attempts > maxAttempts` guard throws, and
otherwise the loop exits as soon as the backend `exists` check is false.
`i` counts the attempts already made, so `attempts = i + 1`. -/

def genLoop (gen : Nat → String) (ex : String → Except StoreError Bool)
    (maxAttempts : Nat) : Nat → Nat → Except StoreError String
  | _, 0 => .error .generationExhausted
  | i, fuel + 1 =>
    let id := gen i
    if i + 1 > maxAttempts then
      .error .generationExhausted
    else
      match ex id with
      | .error e => .error e
      | .ok true => genLoop gen ex maxAttempts (i + 1) fuel
      | .ok false => .ok id

/-- `generateUniqueId` with the backend existence check abstracted to a pure
predicate (the backend state does not change during the loop):
`maxAttempts = 10`.  The loop carries `maxAttempts + 1 - attempts` as
structural fuel; the zero-fuel branch coincides with the exhaustion throw
and is unreachable from this entry point, where the fuel starts at 11. -/
def generateUniqueId (gen : Nat → String) (ex : String → Bool) :
    Except StoreError String :=
  genLoop gen (fun id => .ok (ex id)) 10 0 11

/-- `RedisSessionStore.create` (lines 232-252): generate a unique id, build
the fresh record, persist it with `SETEX` under the configured TTL, and
return it.  `gen` is the NanoID stream, `now` the creation time. -/
def storeCreate (cfg : StoreConfig) (gen : Nat → String) (now : Int)
    (σ : RedisState) (userId : Option String) :
    Except StoreError (Session × RedisState) := do
  let id ← genLoop gen (fun cid => clientExistsKey σ (getKey cfg cid)) 10 0 11
  let session : Session :=
    { id := id
      userId := userId
      scratchpad := ""
      todos := []
      createdAt := now
      lastModified := now }
  let key := getKey cfg id
  let data := serializeSession session
  let σ' ← clientSetex σ key cfg.ttlSeconds data
  return (session, σ')

/-! ## Per-session lock table (src/utils/locks.ts)

`sessionLocks` is a module-level `Map<string, Mutex>`; only the set of keys
present in the table is observable state (each value is a fresh `Mutex`),
so the table is modelled as the list of session ids holding a lock. -/

/-- `getSessionLock`: lazily create the mutex for a session id.  The model
returns the table after the lookup-or-insert. -/
def getSessionLock (locks : List String) (sessionId : String) : List String :=
  if sessionId ∈ locks then locks else sessionId :: locks

/-- `removeSessionLock`: drop a session's lock from the table.  Its doc
comment instructs: "call when session is deleted to prevent memory leaks";
no code in the repository calls it. -/
def removeSessionLock (locks : List String) (sessionId : String) :
    List String :=
  locks.filter (fun l => l ≠ sessionId)

/-- Combined server state: the Redis backend plus the per-session lock
table. -/
structure ServerState where
  redis : RedisState
  locks : List String
deriving DecidableEq, Repr

/-- The repository's only session-deletion path, lifted to the combined
state: `RedisSessionStore.delete` removes the Redis key; nothing in the
deletion path (or anywhere else) calls `removeSessionLock`, so the lock
table is carried through unchanged. -/
def deleteSession (cfg : StoreConfig) (st : ServerState) (sessionId : String)
    (userId : Option String) : Except StoreError ServerState :=
  match storeDelete cfg st.redis sessionId userId with
  | .error e => .error e
  | .ok r => .ok { redis := r, locks := st.locks }

/-! ## Todo tool handlers (src/tools/todo.ts)

Each handler's `lock.runExclusive` body is embedded as a state transformer on
`RedisState`.  The handlers return an encoded string; the encoder calls are
modelled by a `ToolOutput` tag carrying the encoded payload.  A caught
`UserIdMismatchError` (and, in update/delete, `SessionNotFoundError`) becomes
an `errOut`; uncaught errors propagate as `Except.error`. -/

/-- The observable result of a tool handler (the encoder call it returns). -/
inductive ToolOutput where
  | todoOut (t : Todo)
  | errOut (code : String)
  | successOut (deletedId deletedTitle : String)
deriving DecidableEq, Repr

/-- `addTodo` critical section (todo.ts lines 80-118): get the session,
append a fresh `pending` todo, write the new list back through
`store.update`. `todoId` is the `nanoid(12)` drawn for this call, `nowTodo`
the todo's `new Date()`, and `nowUpd` the `new Date()` stamped by
`store.update`. -/
def addTodo (cfg : StoreConfig) (sessionId : String) (title : String)
    (description : String) (tags : List String) (callerId : Option String)
    (todoId : String) (nowTodo nowUpd : Int) (σ : RedisState) :
    Except StoreError (ToolOutput × RedisState) :=
  match storeGet cfg σ sessionId callerId with
  | .error (.userIdMismatch _) => .ok (.errOut "USER_ID_MISMATCH", σ)
  | .error e => .error e
  | .ok none => .ok (.errOut "SESSION_NOT_FOUND", σ)
  | .ok (some session) =>
    let todo : Todo :=
      { id := todoId
        title := title
        description := description
        tags := tags
        status := .pending
        createdAt := nowTodo }
    let updatedTodos := session.todos ++ [todo]
    match storeUpdate cfg σ sessionId { todos := some updatedTodos }
        callerId nowUpd with
    | .error (.userIdMismatch _) => .ok (.errOut "USER_ID_MISMATCH", σ)
    | .error e => .error e
    | .ok σ' => .ok (.todoOut todo, σ')

/-- `Array.prototype.findIndex` on the todos list: the index of the first
entry satisfying the predicate, or `-1`. -/
def findIndexAux (p : Todo → Bool) : List Todo → Int → Int
  | [], _ => -1
  | t :: ts, i => if p t then i else findIndexAux p ts (i + 1)

def findIndex (p : Todo → Bool) (l : List Todo) : Int :=
  findIndexAux p l 0

/-- `updateTodo` critical section (todo.ts lines 169-219): find the first
todo with the given id, replace its status, write the copied list back. -/
def updateTodo (cfg : StoreConfig) (sessionId : String) (todoId : String)
    (status : TodoStatus) (callerId : Option String) (nowUpd : Int)
    (σ : RedisState) : Except StoreError (ToolOutput × RedisState) :=
  match storeGet cfg σ sessionId callerId with
  | .error (.userIdMismatch _) => .ok (.errOut "USER_ID_MISMATCH", σ)
  | .error e => .error e
  | .ok none => .ok (.errOut "SESSION_NOT_FOUND", σ)
  | .ok (some session) =>
    let todoIndex := findIndex (fun t => t.id = todoId) session.todos
    if todoIndex = -1 then .ok (.errOut "TODO_NOT_FOUND", σ)
    else
      let updatedTodo : Todo :=
        { session.todos.getD todoIndex.toNat default with status := status }
      let updatedTodos := session.todos.set todoIndex.toNat updatedTodo
      match storeUpdate cfg σ sessionId { todos := some updatedTodos }
          callerId nowUpd with
      | .error (.sessionNotFound _) => .ok (.errOut "SESSION_NOT_FOUND", σ)
      | .error (.userIdMismatch _) => .ok (.errOut "USER_ID_MISMATCH", σ)
      | .error e => .error e
      | .ok σ' => .ok (.todoOut updatedTodo, σ')

/-- `deleteTodo` critical section (todo.ts lines 232-280): check the first
matching todo exists, then filter out every todo with the given id and write
the filtered list back. -/
def deleteTodo (cfg : StoreConfig) (sessionId : String) (todoId : String)
    (callerId : Option String) (nowUpd : Int) (σ : RedisState) :
    Except StoreError (ToolOutput × RedisState) :=
  match storeGet cfg σ sessionId callerId with
  | .error (.userIdMismatch _) => .ok (.errOut "USER_ID_MISMATCH", σ)
  | .error e => .error e
  | .ok none => .ok (.errOut "SESSION_NOT_FOUND", σ)
  | .ok (some session) =>
    let todoIndex := findIndex (fun t => t.id = todoId) session.todos
    if todoIndex = -1 then .ok (.errOut "TODO_NOT_FOUND", σ)
    else
      let deletedTodo := session.todos.getD todoIndex.toNat default
      let updatedTodos := session.todos.filter (fun t => t.id ≠ todoId)
      match storeUpdate cfg σ sessionId { todos := some updatedTodos }
          callerId nowUpd with
      | .error (.sessionNotFound _) => .ok (.errOut "SESSION_NOT_FOUND", σ)
      | .error (.userIdMismatch _) => .ok (.errOut "USER_ID_MISMATCH", σ)
      | .error e => .error e
      | .ok σ' => .ok (.successOut deletedTodo.id deletedTodo.title, σ')

/-- Sequential composition of `n` `addTodo` critical sections against the
same session.  Because every `addTodo` call runs its whole
read-compute-write body inside `lock.runExclusive` on the session's mutex,
any concurrent execution of the calls is equivalent to this sequential
composition in lock-acquisition order.  `todoIds` and `times` are the
streams of NanoIDs and clock readings consumed by the calls. -/
def runAddTodos (cfg : StoreConfig) (sessionId : String)
    (callerId : Option String) (todoIds : Nat → String) (times : Nat → Int) :
    Nat → RedisState → Except StoreError (List ToolOutput × RedisState)
  | 0, σ => .ok ([], σ)
  | n + 1, σ =>
    match addTodo cfg sessionId "task" "" [] callerId (todoIds n)
        (times n) (times n) σ with
    | .error e => .error e
    | .ok (out, σ') =>
      match runAddTodos cfg sessionId callerId todoIds times n σ' with
      | .error e => .error e
      | .ok (outs, σ'') => .ok (out :: outs, σ'')

/-! ## Concrete fixtures used by witnesses and counterexamples -/

/-- A store configured with the default key namespace and a 24 h TTL. -/
def cfgW : StoreConfig := { keyPref := "mcp:session:", ttlSeconds := 86400 }

/-- A fresh session owned by `"u1"`. -/
def sessW : Session :=
  { id := "s1", userId := some "u1", scratchpad := "", todos := [],
    createdAt := 0, lastModified := 0 }

/-- A connected backend holding `sessW` with 3600 s remaining TTL. -/
def stateW : RedisState :=
  { connected := true,
    data := [("mcp:session:s1", serializeSession sessW, 3600)] }

/-- An unbound session whose two todos share the id `"t1"`. -/
def sessD : Session :=
  { id := "sd", userId := none, scratchpad := "",
    todos := [⟨"t1", "A", "", [], .pending, 0⟩, ⟨"t1", "B", "", [], .pending, 0⟩],
    createdAt := 0, lastModified := 0 }

/-- A connected backend holding `sessD` with 50 s remaining TTL. -/
def stateD : RedisState :=
  { connected := true,
    data := [("mcp:session:sd", serializeSession sessD, 50)] }

/-! ## Helper lemmas -/

theorem deserializeTodo_serializeTodo (t : Todo) :
    deserializeTodo (serializeTodo t) = t := by
  cases t with
  | mk id title description tags status createdAt =>
    cases status <;>
      simp [serializeTodo, deserializeTodo, statusOfString, TodoStatus.toSerial,
        toISOString, parseISODate]

/-- Round-trip helper: deserialization is a left inverse of serialization. -/
theorem deserializeSession_serializeSession (s : Session) :
    deserializeSession (serializeSession s) = s := by
  cases s with
  | mk id userId scratchpad todos createdAt lastModified =>
    simp [serializeSession, deserializeSession, toISOString, parseISODate,
      List.map_map, Function.comp_def, deserializeTodo_serializeTodo]


theorem lookupEntry_insertEntry_self (d : List (String × SerializedSession × Int))
    (k : String) (v : SerializedSession) (t : Int) :
    lookupEntry (insertEntry d k v t) k = some (v, t) := by
  simp [lookupEntry, insertEntry]

theorem lookupEntry_withEntry_self (σ : RedisState)
    (k : String) (v : SerializedSession) (t : Int) :
    lookupEntry (σ.withEntry k v t).data k = some (v, t) :=
  lookupEntry_insertEntry_self σ.data k v t

theorem validateUserId_error_iff (s : Session) (c : Option String) :
    validateUserId s c = .error (.userIdMismatch s.id) ↔
      (s.userId ≠ none ∧ (c = none ∨ s.userId ≠ c)) := by
  unfold validateUserId
  split_ifs with h1 h2 <;> simp_all

theorem validateUserId_ok_iff (s : Session) (c : Option String) :
    validateUserId s c = .ok () ↔
      ¬(s.userId ≠ none ∧ (c = none ∨ s.userId ≠ c)) := by
  unfold validateUserId
  split_ifs with h1 h2 <;> simp_all

theorem validateUserId_owner (s : Session) (c : Option String)
    (h : s.userId = c) : validateUserId s c = .ok () := by
  rw [validateUserId_ok_iff]
  rcases hc : c with _ | u
  · subst hc; simp [h]
  · subst hc; simp [h]

theorem validateUserId_congr (s s' : Session) (c : Option String)
    (hid : s'.id = s.id) (hu : s'.userId = s.userId) :
    validateUserId s' c = validateUserId s c := by
  unfold validateUserId
  rw [hid, hu]

theorem storeGet_stored_ok (cfg : StoreConfig) (σ : RedisState)
    (sid : String) (s : Session) (τ : Int) (c : Option String)
    (hconn : σ.connected = true)
    (hstored : lookupEntry σ.data (getKey cfg sid) = some (serializeSession s, τ))
    (hv : validateUserId s c = .ok ()) :
    storeGet cfg σ sid c = .ok (some s) := by
  unfold storeGet
  simp [clientGet, hconn, hstored, deserializeSession_serializeSession, hv,
    Bind.bind, Except.bind, Pure.pure, Except.pure]

theorem storeGet_stored_error (cfg : StoreConfig) (σ : RedisState)
    (sid : String) (s : Session) (τ : Int) (c : Option String) (e : StoreError)
    (hconn : σ.connected = true)
    (hstored : lookupEntry σ.data (getKey cfg sid) = some (serializeSession s, τ))
    (hv : validateUserId s c = .error e) :
    storeGet cfg σ sid c = .error e := by
  unfold storeGet
  simp [clientGet, hconn, hstored, deserializeSession_serializeSession, hv,
    Bind.bind, Except.bind, Pure.pure, Except.pure]

theorem storeGet_absent (cfg : StoreConfig) (σ : RedisState)
    (sid : String) (c : Option String)
    (hconn : σ.connected = true)
    (habs : lookupEntry σ.data (getKey cfg sid) = none) :
    storeGet cfg σ sid c = .ok none := by
  unfold storeGet
  simp [clientGet, hconn, habs, Bind.bind, Except.bind, Pure.pure, Except.pure]

theorem storeUpdate_stored_ok (cfg : StoreConfig) (σ : RedisState)
    (sid : String) (s : Session) (τ : Int) (u : SessionUpdates)
    (c : Option String) (now : Int)
    (hconn : σ.connected = true)
    (hstored : lookupEntry σ.data (getKey cfg sid) = some (serializeSession s, τ))
    (hv : validateUserId s c = .ok ()) :
    storeUpdate cfg σ sid u c now =
      .ok (σ.withEntry (getKey cfg sid)
        (serializeSession (applyUpdates s u now))
        (newTtlOf τ cfg.ttlSeconds)) := by
  unfold storeUpdate
  rw [storeGet_stored_ok cfg σ sid s τ c hconn hstored hv]
  simp [clientTtl, clientSetex, hconn, hstored,
    Bind.bind, Except.bind, Pure.pure, Except.pure]

theorem storeUpdate_stored_error (cfg : StoreConfig) (σ : RedisState)
    (sid : String) (s : Session) (τ : Int) (u : SessionUpdates)
    (c : Option String) (now : Int) (e : StoreError)
    (hconn : σ.connected = true)
    (hstored : lookupEntry σ.data (getKey cfg sid) = some (serializeSession s, τ))
    (hv : validateUserId s c = .error e) :
    storeUpdate cfg σ sid u c now = .error e := by
  unfold storeUpdate
  rw [storeGet_stored_error cfg σ sid s τ c e hconn hstored hv]
  rfl

theorem storeUpdate_absent (cfg : StoreConfig) (σ : RedisState)
    (sid : String) (u : SessionUpdates) (c : Option String) (now : Int)
    (hconn : σ.connected = true)
    (habs : lookupEntry σ.data (getKey cfg sid) = none) :
    storeUpdate cfg σ sid u c now = .error (.sessionNotFound sid) := by
  unfold storeUpdate
  rw [storeGet_absent cfg σ sid c hconn habs]
  rfl

theorem storeDelete_stored_ok (cfg : StoreConfig) (σ : RedisState)
    (sid : String) (s : Session) (τ : Int) (c : Option String)
    (hconn : σ.connected = true)
    (hstored : lookupEntry σ.data (getKey cfg sid) = some (serializeSession s, τ))
    (hv : validateUserId s c = .ok ()) :
    storeDelete cfg σ sid c = .ok (σ.withoutEntry (getKey cfg sid)) := by
  unfold storeDelete
  rw [storeGet_stored_ok cfg σ sid s τ c hconn hstored hv]
  simp [clientDel, hconn, Bind.bind, Except.bind, Pure.pure, Except.pure]

theorem storeDelete_stored_error (cfg : StoreConfig) (σ : RedisState)
    (sid : String) (s : Session) (τ : Int) (c : Option String) (e : StoreError)
    (hconn : σ.connected = true)
    (hstored : lookupEntry σ.data (getKey cfg sid) = some (serializeSession s, τ))
    (hv : validateUserId s c = .error e) :
    storeDelete cfg σ sid c = .error e := by
  unfold storeDelete
  rw [storeGet_stored_error cfg σ sid s τ c e hconn hstored hv]
  rfl

theorem genLoop_ok_of_found_aux (gen : Nat → String) (ex : String → Bool)
    (maxAttempts k : Nat) :
    ∀ fuel i, k - i < fuel → i ≤ k → k + 1 ≤ maxAttempts →
      (∀ j, i ≤ j → j < k → ex (gen j) = true) → ex (gen k) = false →
      genLoop gen (fun id => .ok (ex id)) maxAttempts i fuel = .ok (gen k) := by
  intro fuel
  induction fuel with
  | zero =>
    intro i hfuel
    omega
  | succ n ih =>
    intro i hfuel hik hkmax hall hk
    by_cases heq : i = k
    · subst heq
      rw [genLoop]
      simp only [hk]
      split
      · omega
      · rfl
    · have hlt : i < k := by omega
      rw [genLoop]
      have hi : ex (gen i) = true := hall i le_rfl hlt
      simp only [hi]
      split
      · omega
      · exact ih (i + 1) (by omega) hlt hkmax
          (fun j h1 h2 => hall j (by omega) h2) hk

theorem genLoop_ok_of_found (gen : Nat → String) (ex : String → Bool)
    (maxAttempts k : Nat) (hkmax : k + 1 ≤ maxAttempts)
    (hall : ∀ j, j < k → ex (gen j) = true) (hk : ex (gen k) = false) :
    genLoop gen (fun id => .ok (ex id)) maxAttempts 0 (maxAttempts + 1)
      = .ok (gen k) :=
  genLoop_ok_of_found_aux gen ex maxAttempts k (maxAttempts + 1) 0 (by omega)
    (by omega) hkmax (fun j _ h2 => hall j h2) hk

theorem genLoop_error_of_all (gen : Nat → String) (ex : String → Bool)
    (maxAttempts : Nat) :
    ∀ fuel i, (∀ j, i ≤ j → j < maxAttempts → ex (gen j) = true) →
      genLoop gen (fun id => .ok (ex id)) maxAttempts i fuel =
        .error .generationExhausted := by
  intro fuel
  induction fuel with
  | zero =>
    intro i _
    rfl
  | succ n ih =>
    intro i hall
    rw [genLoop]
    split
    · rfl
    · have hlt : i < maxAttempts := by omega
      have hi : ex (gen i) = true := hall i le_rfl hlt
      simp only [hi]
      exact ih (i + 1) (fun j h1 h2 => hall j (by omega) h2)

theorem genLoop_error_means (gen : Nat → String) (ex : String → Bool)
    (maxAttempts : Nat) :
    ∀ fuel i, maxAttempts + 1 ≤ fuel + i →
      genLoop gen (fun id => .ok (ex id)) maxAttempts i fuel =
        .error .generationExhausted →
      ∀ j, i ≤ j → j < maxAttempts → ex (gen j) = true := by
  intro fuel
  induction fuel with
  | zero =>
    intro i hbound _ j h1 h2
    omega
  | succ n ih =>
    intro i hbound hrun j h1 h2
    rw [genLoop] at hrun
    rw [if_neg (by omega)] at hrun
    rcases hex : ex (gen i) with _ | _
    · simp only [hex] at hrun
      cases hrun
    · rcases Nat.eq_or_lt_of_le h1 with rfl | hgt
      · exact hex
      · simp only [hex] at hrun
        exact ih (i + 1) (by omega) hrun j hgt h2

theorem genLoopM_ok_means (gen : Nat → String)
    (ex : String → Except StoreError Bool) (maxAttempts : Nat) :
    ∀ fuel i id, genLoop gen ex maxAttempts i fuel = .ok id →
      ex id = .ok false := by
  intro fuel
  induction fuel with
  | zero =>
    intro i id hrun
    cases hrun
  | succ n ih =>
    intro i id hrun
    rw [genLoop] at hrun
    by_cases hguard : i + 1 > maxAttempts
    · rw [if_pos hguard] at hrun
      cases hrun
    · rw [if_neg hguard] at hrun
      rcases hex : ex (gen i) with e | b
      · simp only [hex] at hrun
        cases hrun
      · rcases b with _ | _
        · simp only [hex] at hrun
          cases hrun
          exact hex
        · simp only [hex] at hrun
          exact ih (i + 1) id hrun

theorem storeUpdate_ok_inversion (cfg : StoreConfig) (σ : RedisState)
    (sid : String) (u : SessionUpdates) (c : Option String) (now : Int)
    (σ' : RedisState)
    (h : storeUpdate cfg σ sid u c now = .ok σ') :
    ∃ d τ, σ.connected = true ∧
      lookupEntry σ.data (getKey cfg sid) = some (d, τ) ∧
      validateUserId (deserializeSession d) c = .ok () ∧
      σ' = σ.withEntry (getKey cfg sid)
        (serializeSession (applyUpdates (deserializeSession d) u now))
        (newTtlOf τ cfg.ttlSeconds) := by
  rcases hconn : σ.connected with _ | _
  · exfalso
    simp [storeUpdate, storeGet, clientGet, hconn, Bind.bind, Except.bind] at h
  · rcases hlook : lookupEntry σ.data (getKey cfg sid) with _ | ⟨d, τ⟩
    · exfalso
      simp [storeUpdate, storeGet, clientGet, hconn, hlook, Bind.bind,
        Except.bind, Pure.pure, Except.pure, throw, throwThe,
        MonadExceptOf.throw] at h
    · rcases hval : validateUserId (deserializeSession d) c with e | v
      · exfalso
        simp [storeUpdate, storeGet, clientGet, hconn, hlook, hval, Bind.bind,
          Except.bind, Pure.pure, Except.pure] at h
      · cases v
        refine ⟨d, τ, rfl, rfl, hval, ?_⟩
        simp [storeUpdate, storeGet, clientGet, clientTtl, clientSetex, hconn,
          hlook, hval, Bind.bind, Except.bind, Pure.pure, Except.pure] at h
        exact h.symm

/-- C1 (counterexample): the claim "no update can clear or change a
non-empty stored userId, for every possible updates argument" is false.
`update`'s argument type `Partial<Omit<Session, "id" | "createdAt">>` does
not exclude `userId`, and the session/updates spread overwrites it:
starting from a session owned by `"u1"`, an update called by `"u1"` whose
updates argument carries a `userId` field of `"u2"` succeeds and leaves the
stored owner equal to `"u2"`. -/
theorem update_can_change_owner :
    (lookupEntry stateW.data "mcp:session:s1").map (fun e => e.1.userId)
      = some (some "u1")
    ∧ (storeUpdate cfgW stateW "s1" { userId := some (some "u2") }
        (some "u1") 5).map
        (fun r => (lookupEntry r.data "mcp:session:s1").map
          (fun e => e.1.userId))
      = .ok (some (some "u2")) := by
  exact ⟨rfl, rfl⟩

/-- C1 (amended): after any `update(sessionId, updates, callerId)` that
succeeds and whose `updates` argument does not contain a `userId` field, the
stored record's `userId` equals the `userId` stored before the call. -/
theorem update_preserves_owner (cfg : StoreConfig) (σ : RedisState)
    (sid : String) (u : SessionUpdates) (c : Option String) (now : Int)
    (σ' : RedisState)
    (hu : u.userId = none)
    (hupd : storeUpdate cfg σ sid u c now = .ok σ') :
    (lookupEntry σ'.data (getKey cfg sid)).map (fun e => e.1.userId)
      = (lookupEntry σ.data (getKey cfg sid)).map (fun e => e.1.userId) := by
  obtain ⟨d, τ, hconn, hlook, hval, rfl⟩ :=
    storeUpdate_ok_inversion cfg σ sid u c now σ' hupd
  rw [lookupEntry_withEntry_self, hlook]
  simp [serializeSession, deserializeSession, applyUpdates, hu]

/-- Witness for `update_preserves_owner` at a concrete owner-bound session
updated with a scratchpad-only `updates` argument. -/
theorem update_preserves_owner_witness :
    (lookupEntry
        (stateW.withEntry "mcp:session:s1"
          (serializeSession (applyUpdates sessW { scratchpad := some "x" } 5))
          3600).data "mcp:session:s1").map (fun e => e.1.userId)
      = (lookupEntry stateW.data "mcp:session:s1").map (fun e => e.1.userId) := by
  exact update_preserves_owner cfgW stateW "s1" { scratchpad := some "x" }
    (some "u1") 5
    (stateW.withEntry "mcp:session:s1"
      (serializeSession (applyUpdates sessW { scratchpad := some "x" } 5))
      3600)
    rfl (by rfl)

/-- C2: for a stored session `s` and caller `c`, `get(sid, c)` raises the
owner-mismatch error exactly when `s.userId` is set and `c` is absent or
differs from it; otherwise (owner unset, or caller equal to the owner) the
get succeeds and returns the session.  The same rule governs `update` and
`delete`, which validate the owner through `get` before mutating anything
(an error result produces no state change in this model). -/
theorem owner_binding_rule (cfg : StoreConfig) (σ : RedisState)
    (sid : String) (s : Session) (τ : Int) (c : Option String)
    (u : SessionUpdates) (now : Int)
    (hconn : σ.connected = true)
    (hstored : lookupEntry σ.data (getKey cfg sid) = some (serializeSession s, τ)) :
    (storeGet cfg σ sid c = .error (.userIdMismatch s.id) ↔
      s.userId ≠ none ∧ (c = none ∨ s.userId ≠ c))
    ∧ (¬(s.userId ≠ none ∧ (c = none ∨ s.userId ≠ c)) →
        storeGet cfg σ sid c = .ok (some s))
    ∧ (storeUpdate cfg σ sid u c now = .error (.userIdMismatch s.id) ↔
      s.userId ≠ none ∧ (c = none ∨ s.userId ≠ c))
    ∧ (storeDelete cfg σ sid c = .error (.userIdMismatch s.id) ↔
      s.userId ≠ none ∧ (c = none ∨ s.userId ≠ c)) := by
  by_cases hcond : s.userId ≠ none ∧ (c = none ∨ s.userId ≠ c)
  · have hv : validateUserId s c = .error (.userIdMismatch s.id) :=
      (validateUserId_error_iff s c).mpr hcond
    refine ⟨?_, ?_, ?_, ?_⟩
    · simp [storeGet_stored_error cfg σ sid s τ c _ hconn hstored hv, hcond]
    · intro hc; exact absurd hcond hc
    · simp [storeUpdate_stored_error cfg σ sid s τ u c now _ hconn hstored hv,
        hcond]
    · simp [storeDelete_stored_error cfg σ sid s τ c _ hconn hstored hv, hcond]
  · have hv : validateUserId s c = .ok () :=
      (validateUserId_ok_iff s c).mpr hcond
    refine ⟨?_, ?_, ?_, ?_⟩
    · simp [storeGet_stored_ok cfg σ sid s τ c hconn hstored hv, hcond]
    · intro _; exact storeGet_stored_ok cfg σ sid s τ c hconn hstored hv
    · simp [storeUpdate_stored_ok cfg σ sid s τ u c now hconn hstored hv, hcond]
    · simp [storeDelete_stored_ok cfg σ sid s τ c hconn hstored hv, hcond]

/-- Witness for `owner_binding_rule`: a session owned by `"u1"` rejects an
absent caller and admits `"u1"`. -/
theorem owner_binding_rule_witness :
    (storeGet cfgW stateW "s1" none = .error (.userIdMismatch "s1") ↔
      (sessW.userId ≠ none ∧ ((none : Option String) = none ∨ sessW.userId ≠ none)))
    ∧ storeGet cfgW stateW "s1" (some "u1") = .ok (some sessW) := by
  have h := owner_binding_rule cfgW stateW "s1" sessW 3600 none {} 5 rfl rfl
  have h2 := owner_binding_rule cfgW stateW "s1" sessW 3600 (some "u1") {} 5 rfl rfl
  exact ⟨h.1, h2.2.1 (by simp [sessW])⟩

/-- C3: a successful `update` writes the session back with TTL
`newTtlOf q ttlSeconds` where `q` is the remaining TTL queried just before
the write: the remaining TTL itself when the query reports a positive value,
and the full configured TTL when the query reports the key gone (`-2`);
with a positive configured TTL the written TTL is never zero or negative. -/
theorem update_ttl_policy (cfg : StoreConfig) (σ : RedisState)
    (sid : String) (u : SessionUpdates) (c : Option String) (now : Int)
    (σ' : RedisState) (ttlq : Int)
    (hupd : storeUpdate cfg σ sid u c now = .ok σ')
    (hq : clientTtl σ (getKey cfg sid) = .ok ttlq) :
    (lookupEntry σ'.data (getKey cfg sid)).map (fun e => e.2)
      = some (newTtlOf ttlq cfg.ttlSeconds)
    ∧ (0 < ttlq → newTtlOf ttlq cfg.ttlSeconds = ttlq)
    ∧ (ttlq = -2 → newTtlOf ttlq cfg.ttlSeconds = cfg.ttlSeconds)
    ∧ (0 < cfg.ttlSeconds → 0 < newTtlOf ttlq cfg.ttlSeconds) := by
  obtain ⟨d, τ, hconn, hlook, hval, rfl⟩ :=
    storeUpdate_ok_inversion cfg σ sid u c now σ' hupd
  have hτ : ttlq = τ := by
    simp [clientTtl, hconn, hlook] at hq
    omega
  subst hτ
  refine ⟨?_, ?_, ?_, ?_⟩
  · rw [lookupEntry_withEntry_self]
    rfl
  · intro h; simp [newTtlOf, h]
  · intro h; simp [newTtlOf, h]
  · intro h; unfold newTtlOf; split <;> omega

/-- Witness for `update_ttl_policy` at a stored session with 3600 s
remaining. -/
theorem update_ttl_policy_witness :
    (lookupEntry
        (stateW.withEntry "mcp:session:s1"
          (serializeSession (applyUpdates sessW { scratchpad := some "x" } 5))
          3600).data "mcp:session:s1").map (fun e => e.2)
      = some (newTtlOf 3600 cfgW.ttlSeconds)
    ∧ ((0:Int) < 3600 → newTtlOf 3600 cfgW.ttlSeconds = 3600)
    ∧ ((3600:Int) = -2 → newTtlOf 3600 cfgW.ttlSeconds = cfgW.ttlSeconds)
    ∧ ((0:Int) < cfgW.ttlSeconds → (0:Int) < newTtlOf 3600 cfgW.ttlSeconds) := by
  exact update_ttl_policy cfgW stateW "s1" { scratchpad := some "x" }
    (some "u1") 5
    (stateW.withEntry "mcp:session:s1"
      (serializeSession (applyUpdates sessW { scratchpad := some "x" } 5))
      3600)
    3600 (by rfl) (by rfl)

/-- C4: when the backend connection is down, `get` and `update` both
propagate the distinguishable `backendUnavailable` error: the connectivity
fault never yields a null/absent result and never surfaces as a
`sessionNotFound` error. -/
theorem backend_unavailable_distinct (cfg : StoreConfig) (σ : RedisState)
    (sid : String) (u : SessionUpdates) (c : Option String) (now : Int)
    (hdis : σ.connected = false) :
    storeGet cfg σ sid c = .error .backendUnavailable
    ∧ storeUpdate cfg σ sid u c now = .error .backendUnavailable
    ∧ storeGet cfg σ sid c ≠ .ok none
    ∧ (∀ sid2, storeGet cfg σ sid c ≠ .error (.sessionNotFound sid2))
    ∧ (∀ sid2, storeUpdate cfg σ sid u c now ≠ .error (.sessionNotFound sid2)) := by
  have hg : storeGet cfg σ sid c = .error .backendUnavailable := by
    simp [storeGet, clientGet, hdis, Bind.bind, Except.bind]
  have hup : storeUpdate cfg σ sid u c now = .error .backendUnavailable := by
    unfold storeUpdate
    rw [hg]
    rfl
  refine ⟨hg, hup, ?_, ?_, ?_⟩ <;> simp [hg, hup]

/-- Witness for `backend_unavailable_distinct` on a disconnected backend. -/
theorem backend_unavailable_distinct_witness :
    storeGet cfgW { connected := false, data := [] } "s1" none
      = .error .backendUnavailable
    ∧ storeUpdate cfgW { connected := false, data := [] } "s1" {} none 5
      = .error .backendUnavailable
    ∧ storeGet cfgW { connected := false, data := [] } "s1" none ≠ .ok none
    ∧ (∀ sid2, storeGet cfgW { connected := false, data := [] } "s1" none
        ≠ .error (.sessionNotFound sid2))
    ∧ (∀ sid2, storeUpdate cfgW { connected := false, data := [] } "s1" {} none 5
        ≠ .error (.sessionNotFound sid2)) := by
  exact backend_unavailable_distinct cfgW { connected := false, data := [] }
    "s1" {} none 5 rfl

/-- C5: `generateUniqueId` fails with the generation-exhausted error exactly
when all of the first 10 generated candidates collide with existing ids, and
otherwise returns the first generated candidate that does not already exist
in the backend; the loop is bounded, never retrying forever. -/
theorem generateUniqueId_bounded (gen : Nat → String) (ex : String → Bool) :
    (generateUniqueId gen ex = .error .generationExhausted ↔
      ∀ i, i < 10 → ex (gen i) = true)
    ∧ (∀ k, k < 10 → (∀ j, j < k → ex (gen j) = true) →
        ex (gen k) = false → generateUniqueId gen ex = .ok (gen k)) := by
  constructor
  · constructor
    · intro h j hj
      exact genLoop_error_means gen ex 10 11 0 (by omega) h j (by omega) hj
    · intro hall
      exact genLoop_error_of_all gen ex 10 11 0 (fun j _ hj => hall j hj)
  · intro k hk hall hkf
    exact genLoop_ok_of_found gen ex 10 k (by omega) hall hkf

/-- Witness for `generateUniqueId_bounded`: with candidates "0", "1", ...
and only "3" free, the fourth candidate is returned; with every candidate
colliding, the loop fails with the exhaustion error. -/
theorem generateUniqueId_bounded_witness :
    generateUniqueId (fun i => toString i) (fun s => s != "3") = .ok "3"
    ∧ generateUniqueId (fun i => toString i) (fun _ => true)
        = .error .generationExhausted := by
  constructor
  · exact (generateUniqueId_bounded (fun i => toString i) (fun s => s != "3")).2
      3 (by decide) (by decide) (by decide)
  · exact (generateUniqueId_bounded (fun i => toString i) (fun _ => true)).1.mpr
      (by decide)

/-- C6 (code bug): the claim says `deleteSession` removes both the backend
record and the session's entry in the per-session lock table.  The code
removes only the backend record: `removeSessionLock` exists (and its own doc
comment instructs to call it when a session is deleted), but nothing in the
repository calls it, so deleting a session leaves its lock-table entry in
place.  This theorem evaluates the deletion path at a session whose lock
entry is present: the Redis record is gone, the lock entry `"s1"` remains,
while `removeSessionLock` would have emptied the table. -/
theorem delete_session_leaves_lock_entry :
    deleteSession cfgW { redis := stateW, locks := ["s1"] } "s1" (some "u1")
      = .ok { redis := { connected := true, data := [] }, locks := ["s1"] }
    ∧ removeSessionLock ["s1"] "s1" = [] := by
  exact ⟨rfl, rfl⟩

/-- C7: deserializing the serialization of any Session record reproduces
every field exactly — both timestamps to full (millisecond) precision, the
order of the todos sequence, and the order of each todo's tags sequence. -/
theorem serialization_roundtrip (s : Session) :
    deserializeSession (serializeSession s) = s :=
  deserializeSession_serializeSession s

/-- C8: a successful `create(userId)` returns a session with the given
owner, empty scratchpad, empty todos and `createdAt = lastModified = now`,
under an id that did not exist in the backend before the call; a `get` of
that id performed immediately afterwards (with the creating identity)
returns a record equal to the one `create` returned. -/
theorem create_fresh_then_get (cfg : StoreConfig) (gen : Nat → String)
    (now : Int) (σ : RedisState) (userId : Option String) (s : Session)
    (σ' : RedisState)
    (hconn : σ.connected = true)
    (hcr : storeCreate cfg gen now σ userId = .ok (s, σ')) :
    s.userId = userId ∧ s.scratchpad = "" ∧ s.todos = [] ∧
    s.createdAt = now ∧ s.lastModified = now ∧
    lookupEntry σ.data (getKey cfg s.id) = none ∧
    storeGet cfg σ' s.id userId = .ok (some s) := by
  rcases hgen : genLoop gen (fun cid => clientExistsKey σ (getKey cfg cid))
      10 0 11 with e | id
  · exfalso
    simp [storeCreate, hgen, Bind.bind, Except.bind] at hcr
  · have hfresh : lookupEntry σ.data (getKey cfg id) = none := by
      have hex := genLoopM_ok_means gen
        (fun cid => clientExistsKey σ (getKey cfg cid)) 10 11 0 id hgen
      simp [clientExistsKey, hconn] at hex
      exact Option.not_isSome_iff_eq_none.mp (by simp [hex])
    have hσ' : σ' = σ.withEntry (getKey cfg id)
          (serializeSession ⟨id, userId, "", [], now, now⟩)
          cfg.ttlSeconds ∧ s = ⟨id, userId, "", [], now, now⟩ := by
      simp [storeCreate, hgen, clientSetex, hconn, Bind.bind, Except.bind,
        Pure.pure, Except.pure] at hcr
      exact ⟨hcr.2.symm, hcr.1.symm⟩
    obtain ⟨rfl, rfl⟩ := hσ'
    refine ⟨rfl, rfl, rfl, rfl, rfl, hfresh, ?_⟩
    exact storeGet_stored_ok cfg _ _ _ cfg.ttlSeconds userId hconn
      (lookupEntry_withEntry_self _ _ _ _)
      (validateUserId_owner _ userId rfl)

/-- Witness for `create_fresh_then_get`: creation for `"alice"` on an empty
connected backend. -/
theorem create_fresh_then_get_witness :
    (⟨"0", some "alice", "", [], 7, 7⟩ : Session).userId = some "alice"
    ∧ (⟨"0", some "alice", "", [], 7, 7⟩ : Session).scratchpad = ""
    ∧ (⟨"0", some "alice", "", [], 7, 7⟩ : Session).todos = []
    ∧ (⟨"0", some "alice", "", [], 7, 7⟩ : Session).createdAt = 7
    ∧ (⟨"0", some "alice", "", [], 7, 7⟩ : Session).lastModified = 7
    ∧ lookupEntry ([] : List (String × SerializedSession × Int))
        (getKey cfgW "0") = none
    ∧ storeGet cfgW
        (RedisState.withEntry ⟨true, []⟩ (getKey cfgW "0")
          (serializeSession ⟨"0", some "alice", "", [], 7, 7⟩)
          cfgW.ttlSeconds)
        "0" (some "alice")
      = .ok (some ⟨"0", some "alice", "", [], 7, 7⟩) := by
  exact create_fresh_then_get cfgW (fun i => toString i) 7
    ⟨true, []⟩ (some "alice")
    ⟨"0", some "alice", "", [], 7, 7⟩
    (RedisState.withEntry ⟨true, []⟩ (getKey cfgW "0")
      (serializeSession ⟨"0", some "alice", "", [], 7, 7⟩)
      cfgW.ttlSeconds)
    rfl (by rfl)

theorem addTodo_step (cfg : StoreConfig) (σ : RedisState) (sid : String)
    (s : Session) (τ : Int) (c : Option String) (tid : String) (t1 t2 : Int)
    (hconn : σ.connected = true)
    (hstored : lookupEntry σ.data (getKey cfg sid) = some (serializeSession s, τ))
    (hv : validateUserId s c = .ok ()) :
    addTodo cfg sid "task" "" [] c tid t1 t2 σ =
      .ok (.todoOut ⟨tid, "task", "", [], .pending, t1⟩,
        σ.withEntry (getKey cfg sid)
          (serializeSession (applyUpdates s
            { todos := some (s.todos ++ [⟨tid, "task", "", [], .pending, t1⟩]) }
            t2))
          (newTtlOf τ cfg.ttlSeconds)) := by
  have hg := storeGet_stored_ok cfg σ sid s τ c hconn hstored hv
  have hu := storeUpdate_stored_ok cfg σ sid s τ
    { todos := some (s.todos ++ [⟨tid, "task", "", [], .pending, t1⟩]) }
    c t2 hconn hstored hv
  simp only [addTodo, hg, hu]

theorem runAddTodos_accumulate (cfg : StoreConfig) (sid : String)
    (c : Option String) (tids : Nat → String) (times : Nat → Int) :
    ∀ N σ s τ, σ.connected = true →
      lookupEntry σ.data (getKey cfg sid) = some (serializeSession s, τ) →
      validateUserId s c = .ok () →
      ∃ outs σf sf τf,
        runAddTodos cfg sid c tids times N σ = .ok (outs, σf) ∧
        outs.length = N ∧
        (∀ o ∈ outs, ∃ t, o = ToolOutput.todoOut t) ∧
        σf.connected = true ∧
        lookupEntry σf.data (getKey cfg sid) = some (serializeSession sf, τf) ∧
        sf.todos.length = s.todos.length + N ∧
        sf.userId = s.userId ∧ sf.id = s.id := by
  intro N
  induction N with
  | zero =>
    intro σ s τ hconn hst hv
    exact ⟨[], σ, s, τ, rfl, rfl, by simp, hconn, hst, by omega, rfl, rfl⟩
  | succ n ih =>
    intro σ s τ hconn hst hv
    have hstep := addTodo_step cfg σ sid s τ c (tids n) (times n) (times n)
      hconn hst hv
    have h2 := lookupEntry_withEntry_self σ (getKey cfg sid)
      (serializeSession (applyUpdates s
        { todos := some (s.todos ++ [⟨tids n, "task", "", [], .pending, times n⟩]) }
        (times n)))
      (newTtlOf τ cfg.ttlSeconds)
    have hv₁ : validateUserId (applyUpdates s
        { todos := some (s.todos ++ [⟨tids n, "task", "", [], .pending, times n⟩]) }
        (times n)) c = .ok () := by
      rw [validateUserId_congr s _ c (by simp [applyUpdates]) (by simp [applyUpdates])]
      exact hv
    obtain ⟨outs, σf, sf, τf, hrun, hlen, hout, hcf, hlf, hslen, hsuid, hsid⟩ :=
      ih (σ.withEntry (getKey cfg sid)
        (serializeSession (applyUpdates s
          { todos := some (s.todos ++ [⟨tids n, "task", "", [], .pending, times n⟩]) }
          (times n)))
        (newTtlOf τ cfg.ttlSeconds))
        (applyUpdates s
          { todos := some (s.todos ++ [⟨tids n, "task", "", [], .pending, times n⟩]) }
          (times n))
        (newTtlOf τ cfg.ttlSeconds) hconn h2 hv₁
    refine ⟨.todoOut ⟨tids n, "task", "", [], .pending, times n⟩ :: outs,
      σf, sf, τf, ?_, ?_, ?_, hcf, hlf, ?_, ?_, ?_⟩
    · simp only [runAddTodos, hstep, hrun]
    · simp [hlen]
    · intro o ho
      rcases List.mem_cons.mp ho with rfl | ho2
      · exact ⟨_, rfl⟩
      · exact hout o ho2
    · have hlen1 : (applyUpdates s
          { todos := some (s.todos ++ [⟨tids n, "task", "", [], .pending, times n⟩]) }
          (times n)).todos.length = s.todos.length + 1 := by
        simp [applyUpdates]
      omega
    · rw [hsuid]; simp [applyUpdates]
    · rw [hsid]; simp [applyUpdates]

/-- C9: N concurrent `addTodo` calls against one stored session all succeed
and leave the session with exactly N todos — no lost updates.  Each call
runs its whole read-compute-write sequence inside `lock.runExclusive` on the
session's mutex, so a concurrent execution is equivalent to the sequential
composition `runAddTodos` in lock-acquisition order, with no intermediate
state observable between a call's read and its write. -/
theorem concurrent_addTodos_no_lost_updates (cfg : StoreConfig) (sid : String)
    (c : Option String) (tids : Nat → String) (times : Nat → Int) (N : Nat)
    (σ : RedisState) (s : Session) (τ : Int)
    (hconn : σ.connected = true)
    (hstored : lookupEntry σ.data (getKey cfg sid) = some (serializeSession s, τ))
    (hv : validateUserId s c = .ok ())
    (hempty : s.todos = []) :
    ∃ outs σf sf τf,
      runAddTodos cfg sid c tids times N σ = .ok (outs, σf) ∧
      outs.length = N ∧
      (∀ o ∈ outs, ∃ t, o = ToolOutput.todoOut t) ∧
      lookupEntry σf.data (getKey cfg sid) = some (serializeSession sf, τf) ∧
      sf.todos.length = N := by
  obtain ⟨outs, σf, sf, τf, h1, h2, h3, _, h5, h6, _, _⟩ :=
    runAddTodos_accumulate cfg sid c tids times N σ s τ hconn hstored hv
  refine ⟨outs, σf, sf, τf, h1, h2, h3, h5, ?_⟩
  rw [h6, hempty]
  simp

/-- Witness for `concurrent_addTodos_no_lost_updates`: two calls against
the stored fresh session leave exactly two todos. -/
theorem concurrent_addTodos_no_lost_updates_witness :
    ∃ outs σf sf τf,
      runAddTodos cfgW "s1" (some "u1") (fun n => toString n) (fun _ => 9) 2
        stateW = .ok (outs, σf) ∧
      outs.length = 2 ∧
      (∀ o ∈ outs, ∃ t, o = ToolOutput.todoOut t) ∧
      lookupEntry σf.data (getKey cfgW "s1") = some (serializeSession sf, τf) ∧
      sf.todos.length = 2 := by
  exact concurrent_addTodos_no_lost_updates cfgW "s1" (some "u1")
    (fun n => toString n) (fun _ => 9) 2 stateW sessW 3600 rfl rfl (by rfl) rfl

theorem findIndexAux_eq (p : Todo → Bool) :
    ∀ (l : List Todo) (i : Int) (k : Nat), k < l.length →
      p (l.getD k default) = true →
      (∀ m, m < k → p (l.getD m default) = false) →
      findIndexAux p l i = i + k := by
  intro l
  induction l with
  | nil =>
    intro i k hk
    simp at hk
  | cons t ts ih =>
    intro i k hk hp hmin
    rcases k with _ | k
    · simp only [List.getD_cons_zero] at hp
      simp [findIndexAux, hp]
    · have ht : p t = false := by
        have := hmin 0 (by omega)
        simpa using this
      simp only [findIndexAux, ht, Bool.false_eq_true, if_false]
      have := ih (i + 1) k (by simpa using hk)
        (by simpa using hp)
        (fun m hm => by simpa using hmin (m + 1) (by omega))
      rw [this]
      push_cast
      ring

theorem firstMatch_of_mem (p : Todo → Bool) :
    ∀ l : List Todo, (∃ x ∈ l, p x = true) →
      ∃ k, k < l.length ∧ p (l.getD k default) = true ∧
        ∀ m, m < k → p (l.getD m default) = false := by
  intro l
  induction l with
  | nil =>
    rintro ⟨x, hx, _⟩
    simp at hx
  | cons t ts ih =>
    rintro ⟨x, hx, hpx⟩
    by_cases hpt : p t = true
    · exact ⟨0, by simp, by simpa using hpt, fun m hm => by omega⟩
    · have hxts : x ∈ ts := by
        rcases List.mem_cons.mp hx with rfl | h
        · exact absurd hpx hpt
        · exact h
      obtain ⟨k, hk, hpk, hmin⟩ := ih ⟨x, hxts, hpx⟩
      refine ⟨k + 1, by simpa using hk, by simpa using hpk, ?_⟩
      intro m hm
      rcases m with _ | m
      · simpa using Bool.eq_false_iff.mpr hpt
      · simpa using hmin m (by omega)

theorem deleteTodo_found (cfg : StoreConfig) (σ : RedisState) (sid : String)
    (s : Session) (τ : Int) (c : Option String) (tid : String) (now : Int)
    (k : Nat)
    (hconn : σ.connected = true)
    (hstored : lookupEntry σ.data (getKey cfg sid) = some (serializeSession s, τ))
    (hv : validateUserId s c = .ok ())
    (hfi : findIndex (fun t => t.id = tid) s.todos = (k : Int)) :
    deleteTodo cfg sid tid c now σ =
      .ok (.successOut (s.todos.getD k default).id
          (s.todos.getD k default).title,
        σ.withEntry (getKey cfg sid)
          (serializeSession (applyUpdates s
            { todos := some (s.todos.filter (fun t => t.id ≠ tid)) } now))
          (newTtlOf τ cfg.ttlSeconds)) := by
  have hg := storeGet_stored_ok cfg σ sid s τ c hconn hstored hv
  have hu := storeUpdate_stored_ok cfg σ sid s τ
    { todos := some (s.todos.filter (fun t => t.id ≠ tid)) } c now
    hconn hstored hv
  have hne : ¬((k : Int) = -1) := by omega
  simp only [deleteTodo, hg, hfi, if_neg hne, Int.toNat_natCast, hu]

theorem updateTodo_found (cfg : StoreConfig) (σ : RedisState) (sid : String)
    (s : Session) (τ : Int) (c : Option String) (tid : String)
    (status : TodoStatus) (now : Int) (k : Nat)
    (hconn : σ.connected = true)
    (hstored : lookupEntry σ.data (getKey cfg sid) = some (serializeSession s, τ))
    (hv : validateUserId s c = .ok ())
    (hfi : findIndex (fun t => t.id = tid) s.todos = (k : Int)) :
    updateTodo cfg sid tid status c now σ =
      .ok (.todoOut { s.todos.getD k default with status := status },
        σ.withEntry (getKey cfg sid)
          (serializeSession (applyUpdates s
            { todos := some (s.todos.set k
              { s.todos.getD k default with status := status }) } now))
          (newTtlOf τ cfg.ttlSeconds)) := by
  have hg := storeGet_stored_ok cfg σ sid s τ c hconn hstored hv
  have hu := storeUpdate_stored_ok cfg σ sid s τ
    { todos := some (s.todos.set k
      { s.todos.getD k default with status := status }) } c now
    hconn hstored hv
  have hne : ¬((k : Int) = -1) := by omega
  simp only [updateTodo, hg, hfi, if_neg hne, Int.toNat_natCast, hu]

/-- C10: on a session whose todos contain two or more entries sharing the
id `tid`, `deleteTodo` filters out every entry with that id (none remains in
the stored list), while `updateTodo` rewrites only the first entry with that
id in insertion order — the entry at the least matching index `k` gets the
new status, and every other position of the stored list is unchanged. -/
theorem duplicate_todo_id_semantics (cfg : StoreConfig) (σ : RedisState)
    (sid : String) (s : Session) (τ : Int) (c : Option String) (tid : String)
    (status : TodoStatus) (now : Int)
    (hconn : σ.connected = true)
    (hstored : lookupEntry σ.data (getKey cfg sid) = some (serializeSession s, τ))
    (hv : validateUserId s c = .ok ())
    (hdup : 2 ≤ (s.todos.filter (fun t => t.id = tid)).length) :
    (∃ out σd,
      deleteTodo cfg sid tid c now σ = .ok (out, σd) ∧
      lookupEntry σd.data (getKey cfg sid) =
        some (serializeSession (applyUpdates s
          { todos := some (s.todos.filter (fun t => t.id ≠ tid)) } now),
          newTtlOf τ cfg.ttlSeconds) ∧
      (∀ x ∈ s.todos.filter (fun t => t.id ≠ tid), x.id ≠ tid))
    ∧ (∃ k σu,
      k < s.todos.length ∧
      (s.todos.getD k default).id = tid ∧
      (∀ m, m < k → (s.todos.getD m default).id ≠ tid) ∧
      updateTodo cfg sid tid status c now σ =
        .ok (.todoOut { s.todos.getD k default with status := status }, σu) ∧
      lookupEntry σu.data (getKey cfg sid) =
        some (serializeSession (applyUpdates s
          { todos := some (s.todos.set k
            { s.todos.getD k default with status := status }) } now),
          newTtlOf τ cfg.ttlSeconds) ∧
      (∀ m, m ≠ k → (s.todos.set k
          { s.todos.getD k default with status := status }).getD m default
        = s.todos.getD m default)) := by
  have hpos : 0 < (s.todos.filter (fun t => t.id = tid)).length := by omega
  obtain ⟨x, hxf⟩ := List.exists_mem_of_length_pos hpos
  have hxmem := (List.mem_filter.mp hxf).1
  have hxp := (List.mem_filter.mp hxf).2
  obtain ⟨k, hk, hpk, hmin⟩ :=
    firstMatch_of_mem (fun t => t.id = tid) s.todos ⟨x, hxmem, hxp⟩
  have hfi : findIndex (fun t => t.id = tid) s.todos = (k : Int) := by
    have := findIndexAux_eq (fun t => t.id = tid) s.todos 0 k hk hpk hmin
    simpa [findIndex] using this
  constructor
  · refine ⟨_, _, deleteTodo_found cfg σ sid s τ c tid now k
      hconn hstored hv hfi, ?_, ?_⟩
    · rw [lookupEntry_withEntry_self]
    · intro y hy
      have := (List.mem_filter.mp hy).2
      simpa using this
  · refine ⟨k, _, hk, by simpa using hpk,
      fun m hm => by simpa using hmin m hm,
      updateTodo_found cfg σ sid s τ c tid status now k
        hconn hstored hv hfi, ?_, ?_⟩
    · rw [lookupEntry_withEntry_self]
    · intro m hm
      rw [List.getD_eq_getElem?_getD, List.getD_eq_getElem?_getD,
        List.getElem?_set_ne (Ne.symm hm)]
      exact (List.getD_eq_getElem?_getD s.todos m default).symm

/-- Witness for `duplicate_todo_id_semantics` on the two-duplicate session
`sessD`. -/
theorem duplicate_todo_id_semantics_witness :
    (∃ out σd,
      deleteTodo cfgW "sd" "t1" none 9 stateD = .ok (out, σd) ∧
      lookupEntry σd.data (getKey cfgW "sd") =
        some (serializeSession (applyUpdates sessD
          { todos := some (sessD.todos.filter (fun t => t.id ≠ "t1")) } 9),
          newTtlOf 50 cfgW.ttlSeconds) ∧
      (∀ x ∈ sessD.todos.filter (fun t => t.id ≠ "t1"), x.id ≠ "t1"))
    ∧ (∃ k σu,
      k < sessD.todos.length ∧
      (sessD.todos.getD k default).id = "t1" ∧
      (∀ m, m < k → (sessD.todos.getD m default).id ≠ "t1") ∧
      updateTodo cfgW "sd" "t1" TodoStatus.done none 9 stateD =
        .ok (.todoOut { sessD.todos.getD k default with status := TodoStatus.done },
          σu) ∧
      lookupEntry σu.data (getKey cfgW "sd") =
        some (serializeSession (applyUpdates sessD
          { todos := some (sessD.todos.set k
            { sessD.todos.getD k default with status := TodoStatus.done }) } 9),
          newTtlOf 50 cfgW.ttlSeconds) ∧
      (∀ m, m ≠ k → (sessD.todos.set k
          { sessD.todos.getD k default with status := TodoStatus.done }).getD
            m default
        = sessD.todos.getD m default)) := by
  exact duplicate_todo_id_semantics cfgW stateD "sd" sessD 50 none "t1"
    TodoStatus.done 9 rfl rfl (by rfl) (by decide)

end PlanAct
